import Mathlib

/-!
Verification of the streaming partial-JSON synchronization and
document-reconciliation core of the schemaforge repository.

The definitions below are a shallow embedding of the JavaScript source:

* `processRuleChanges` embeds `processRuleChanges` from
  `src/js/dbt-generation.js` (lines 131-183), the Reconciler that merges a
  chat-produced patch into the current DBT rule set.
* `heapProcess` re-embeds the mutable-list part of the same function over an
  explicit object store, so that the deep copy at line 137
  (`JSON.parse(JSON.stringify(currentRules))`) and the in-place writes to the
  copy become visible as writes to distinct store cells.
* `chatRun` / `chatEmissions` embed the streaming loop of `handleDbtRuleChat`
  (`src/js/dbt-generation.js`, lines 89-106).
* `dbtStreamStep`, `generateDbtRulesModel`, `fixupSummary` and
  `handleGenerateDbtRulesModel` embed the `generateDbtRules` request pipeline
  (`src/js/dbt-generation.js` lines 13-72) and its caller
  `handleGenerateDbtRules` (`src/js/core/event-handlers.js` lines 189-236).
  The two JSON parsers used by the source (the best-effort streaming parser
  and the strict `JSON.parse`) are host/library primitives, not repository
  code, and are passed as explicit function parameters.
* `ensureRelationships` / `forwardSchemaUpdate` / `forwardDbtUpdate` embed the
  progress-callback bodies of `handleFileUpload`
  (`src/js/core/event-handlers.js` lines 142-156, identical in
  `src/js/main.js` lines 465-479) and of `handleGenerateDbtRules`
  (lines 211-221).
* `routeMessage` embeds the chat-intent heuristic of `streamChatResponse`
  (`src/js/llm-service.js`, lines 132-143).

JavaScript objects are modelled as records whose possibly-absent fields are
`Option`s (`none` = the key is absent or `undefined`/`null`); JavaScript
strings and arrays keep their value semantics.  In-place mutation of the
arguments is made explicit: functions return the post-call value of every
argument object the source writes to.
-/

/-- Truthiness of a possibly-absent JavaScript string: `undefined`, `null`
and the empty string are falsy, every other string is truthy. -/
def jsTruthyStr : Option String → Bool
  | some s => !(s == "")
  | none => false

/-- Embedding of JavaScript `s.includes(sub)`: `sub` occurs as a contiguous
substring of `s`. -/
def strIncludes (s sub : String) : Bool := decide (sub.data <:+: s.data)

/-- Embedding of JavaScript `s.toLowerCase()` (character-wise lowering; the
source only probes for the ASCII substrings "rule" and "dbt"). -/
def jsToLower (s : String) : String := ⟨s.data.map Char.toLower⟩

/-- A `TableRule` object as produced by the LLM and stored in the rule set
(`dbtRules` array entries).  `tableName` is always present (it is the merge
identity key); the remaining fields are optional.  `materialization` and
`modelSql` stand for the payload fields a rule carries; `isNewRule` is the
request-only "this is an addition" flag of a patch entry
(`src/js/dbt-generation.js` line 143). -/
structure Rule where
  tableName : String
  isNewRule : Option Bool := none
  materialization : Option String := none
  modelSql : Option String := none
deriving Repr, DecidableEq

/-- Placeholder rule used as the (unreachable) default of indexed access. -/
def defaultRule : Rule := { tableName := "" }

/-- Embedding of `Object.assign(target, src)` for two rule objects: every
field present on `src` overwrites the corresponding field of `target`;
fields absent from `src` keep their `target` value (line 146 of
`src/js/dbt-generation.js`). -/
def objectAssign (target src : Rule) : Rule :=
  { tableName := src.tableName
    isNewRule := match src.isNewRule with
      | some b => some b
      | none => target.isNewRule
    materialization := match src.materialization with
      | some v => some v
      | none => target.materialization
    modelSql := match src.modelSql with
      | some v => some v
      | none => target.modelSql }

/-- The rule-set document (`currentRules` / `updatedRules` objects): a
possibly absent `dbtRules` array, a possibly absent `globalRecommendations`
array and a possibly absent `summary` string. -/
structure RuleSetObj where
  dbtRules : Option (List Rule) := none
  globalRecommendations : Option (List String) := none
  summary : Option String := none
deriving Repr, DecidableEq

/-- The patch object (`changes`) delivered by the chat side channel; it has
the same optional fields as a rule-set document. -/
structure Changes where
  dbtRules : Option (List Rule) := none
  globalRecommendations : Option (List String) := none
  summary : Option String := none
deriving Repr, DecidableEq

/-- The `changeLog` object built by `processRuleChanges`
(`src/js/dbt-generation.js` line 138). -/
structure ChangeLog where
  added : List String := []
  modified : List String := []
  errors : List String := []
  lastModifiedTable : String := ""
deriving Repr, DecidableEq

/-- Loop state of the `for (const newRule of changes.dbtRules)` loop
(lines 141-158): the evolving `updatedRules.dbtRules` array, the change log,
and the post-mutation values of the processed patch entries (the source
renames and strips flagged entries in place before pushing them). -/
structure LoopState where
  updatedDbt : List Rule
  log : ChangeLog
  postEntries : List Rule
deriving Repr, DecidableEq

/-- One iteration of the reconciliation loop (lines 142-157).  The source's
`findIndex` result is modelled as `Option Nat` (`none` for JavaScript `-1`).
Merge branch: `existingRuleIndex >= 0 && !isNewRule`.  Add branch: possibly
append the fixed suffix `"_additional"` (only when the entry is flagged new,
a same-named rule exists, and the name contains neither `"_new"` nor
`"_additional"` as a substring), then delete the `isNewRule` flag and push. -/
def processEntry (st : LoopState) (e : Rule) : LoopState :=
  let idx := st.updatedDbt.findIdx? (fun rule => rule.tableName == e.tableName)
  let isNew : Bool := (e.isNewRule == some true) || idx.isNone
  match idx, isNew with
  | some i, false =>
    { st with
      updatedDbt := st.updatedDbt.set i (objectAssign (st.updatedDbt.getD i defaultRule) e)
      log := { st.log with
        modified := st.log.modified ++ ["Modified rule for table \x27" ++ e.tableName ++ "\x27"]
        lastModifiedTable := e.tableName }
      postEntries := st.postEntries ++ [e] }
  | _, _ =>
    let e1 := if isNew && idx.isSome && !(strIncludes e.tableName "_new")
        && !(strIncludes e.tableName "_additional")
      then { e with tableName := e.tableName ++ "_additional" } else e
    let e2 := { e1 with isNewRule := none }
    { st with
      updatedDbt := st.updatedDbt ++ [e2]
      log := { st.log with
        added := st.log.added ++ ["Added new rule for table \x27" ++ e2.tableName ++ "\x27"]
        lastModifiedTable := e2.tableName }
      postEntries := st.postEntries ++ [e2] }

/-- The human-readable part of the response string built at lines 171-174.
The source additionally appends two machine-readable HTML comment trailers
(the serialized updated rules and the last-modified table, lines 176-177);
those serialize the whole rule set with `JSON.stringify` and are omitted
here, no claim refers to them. -/
def buildResponse (log : ChangeLog) : String :=
  let r0 := "### DBT Rules Updated\n\n"
  let r1 := if log.added.length ≠ 0
    then r0 ++ "**Added:**\n" ++ String.intercalate "\n" (log.added.map (fun item => "- " ++ item)) ++ "\n\n"
    else r0
  let r2 := if log.modified.length ≠ 0
    then r1 ++ "**Modified:**\n" ++ String.intercalate "\n" (log.modified.map (fun item => "- " ++ item)) ++ "\n\n"
    else r1
  if log.errors.length ≠ 0
    then r2 ++ "**Errors:**\n" ++ String.intercalate "\n" (log.errors.map (fun item => "- " ++ item)) ++ "\n\n"
    else r2

/-- The value `{ response, updatedRules }` returned by `processRuleChanges`. -/
structure ProcessResult where
  response : String
  updatedRules : Option RuleSetObj
deriving Repr, DecidableEq

/-- Full outcome of a `processRuleChanges` call: the returned value, the
internal change log (`none` on the precondition-failure path, where no log is
created), and the post-call value of the `changes` argument (the source
mutates flagged patch entries in place at lines 151-153). -/
structure ProcessOutcome where
  result : ProcessResult
  changeLog : Option ChangeLog
  postChanges : Changes
deriving Repr, DecidableEq

/-- Embedding of `processRuleChanges(currentRules, changes)`
(`src/js/dbt-generation.js` lines 131-183).  `currentRules = none` covers a
`null`/`undefined` current object; a present object whose `dbtRules` field is
absent fails the same `!currentRules?.dbtRules` precondition.  On the success
path the current object is first deep-copied (line 137, see `heapProcess` for
the store-level view), each patch entry is folded through `processEntry`,
then `globalRecommendations` (any present array is truthy) and `summary`
(truthy only when present and non-empty) are replaced wholesale. -/
def processRuleChanges (currentRules : Option RuleSetObj) (changes : Changes) :
    ProcessOutcome :=
  match currentRules with
  | none => ⟨⟨"Error: Generate DBT rules first.", none⟩, none, changes⟩
  | some cur =>
    match cur.dbtRules with
    | none => ⟨⟨"Error: Generate DBT rules first.", none⟩, none, changes⟩
    | some curList =>
      let st0 : LoopState := ⟨curList, ⟨[], [], [], ""⟩, []⟩
      let st1 := match changes.dbtRules with
        | some entries => entries.foldl processEntry st0
        | none => st0
      let log1 := match changes.globalRecommendations with
        | some _ => { st1.log with modified := st1.log.modified ++ ["Updated global recommendations"] }
        | none => st1.log
      let log2 := if jsTruthyStr changes.summary
        then { log1 with modified := log1.modified ++ ["Updated summary"] }
        else log1
      let updated : RuleSetObj :=
        { dbtRules := some st1.updatedDbt
          globalRecommendations := match changes.globalRecommendations with
            | some g => some g
            | none => cur.globalRecommendations
          summary := if jsTruthyStr changes.summary then changes.summary else cur.summary }
      let post : Changes := { changes with dbtRules := changes.dbtRules.map (fun _ => st1.postEntries) }
      ⟨⟨buildResponse log2, some updated⟩, some log2, post⟩

/-- The list-transforming component of one loop iteration: how
`updatedRules.dbtRules` evolves when one patch entry is processed (the log
and the entry mutation do not influence it). -/
def processEntryList (l : List Rule) (e : Rule) : List Rule :=
  (processEntry ⟨l, ⟨[], [], [], ""⟩, []⟩ e).updatedDbt

/-- Store-level embedding of the mutable part of `processRuleChanges`:
JavaScript array objects live in a store of cells addressed by `Nat`
references.  `currentRef` is the cell holding `currentRules.dbtRules`.  Line
137 (`JSON.parse(JSON.stringify(currentRules))`) allocates a fresh cell for
the copy; each loop iteration writes the new list back to that fresh cell and
to it only.  Returns the final store and the reference of the updated array. -/
def heapProcess (store : List (List Rule)) (currentRef : Nat) (entries : List Rule) :
    List (List Rule) × Nat :=
  let copied := store.getD currentRef []
  let store1 := store ++ [copied]
  let uref := store.length
  (entries.foldl (fun st e => st.set uref (processEntryList (st.getD uref []) e)) store1, uref)

/-- One `{content, error}` item yielded by the `asyncLLM` chunk stream.
Per the accumulation pattern of the source (`fullContent = content`), a
`content` value is the cumulative text so far, not a delta. -/
structure StreamEvent where
  content : Option String := none
  error : Option String := none
deriving Repr, DecidableEq

/-- The sentinel marker that switches `handleDbtRuleChat` into
patch-suppression mode (`src/js/dbt-generation.js` line 99). -/
def dbtRuleSentinel : String := "DBT_RULE_JSON:"

/-- The fixed working indicator emitted instead of raw content once the
sentinel has been seen (line 101). -/
def dbtWorkingIndicator : String := "Generating DBT rule modifications..."

/-- State of the `handleDbtRuleChat` streaming loop (lines 89-106):
accumulated text, the `isDbtRuleResponse` flag, and whether the loop has
thrown (`if (error) throw ...` ends the iteration; later events are never
processed). -/
structure ChatState where
  fullContent : String := ""
  isDbtRuleResponse : Bool := false
  errored : Bool := false
deriving Repr, DecidableEq

/-- One iteration of the `handleDbtRuleChat` loop: returns the new state and
the argument passed to `onUpdate`, if it is invoked (`none` when the chunk
carries no truthy content, an error was thrown, or the loop already ended). -/
def chatStep (st : ChatState) (e : StreamEvent) : ChatState × Option String :=
  if st.errored then (st, none)
  else if jsTruthyStr e.error then ({ st with errored := true }, none)
  else if jsTruthyStr e.content then
    let c := e.content.getD ""
    if strIncludes c dbtRuleSentinel then
      ({ st with fullContent := c, isDbtRuleResponse := true }, some dbtWorkingIndicator)
    else
      ({ st with fullContent := c }, some c)
  else (st, none)

/-- Runs the `handleDbtRuleChat` loop over a chunk sequence, collecting the
per-event `onUpdate` argument (one slot per event, `none` if no callback). -/
def chatRun : ChatState → List StreamEvent → ChatState × List (Option String)
  | st, [] => (st, [])
  | st, e :: rest =>
    let p := chatStep st e
    let r := chatRun p.1 rest
    (r.1, p.2 :: r.2)

/-- Progress-callback arguments of a `handleDbtRuleChat` run started from the
initial state, aligned with the event sequence. -/
def chatEmissions (events : List StreamEvent) : List (Option String) :=
  (chatRun {} events).2

/-- The truthy content of an event, as processed by the loop: an event whose
`error` field is truthy throws before the content test, and a falsy content
is skipped. -/
def eventContent (e : StreamEvent) : Option String :=
  if jsTruthyStr e.error then none
  else if jsTruthyStr e.content then e.content
  else none

/-- Cumulative-stream condition: each successive truthy content extends the
previous one (the upstream `asyncLLM` source yields the accumulated text so
far, see the `fullContent = content` reassignment pattern). -/
def chainB : List String → Bool
  | [] => true
  | [_] => true
  | a :: b :: t => decide (a.data <+: b.data) && chainB (b :: t)

/-- State of the `generateDbtRules` streaming loop
(`src/js/dbt-generation.js` lines 30-58): accumulated text, the values passed
to `onUpdate` (one for every chunk whose best-effort parse succeeded), and
the thrown error, if any. -/
structure DbtStreamState where
  fullContent : String := ""
  updates : List RuleSetObj := []
  err : Option String := none
deriving Repr

/-- One iteration of the `generateDbtRules` loop.  `pparse` is the injected
best-effort streaming JSON parser (the `partial-json` library `parse`;
`none` models its throw, which the source swallows at lines 54-56). -/
def dbtStreamStep (pparse : String → Option RuleSetObj) (st : DbtStreamState)
    (e : StreamEvent) : DbtStreamState :=
  if st.err.isSome then st
  else if jsTruthyStr e.error then { st with err := some ("LLM API error: " ++ e.error.getD "") }
  else if jsTruthyStr e.content then
    let c := e.content.getD ""
    match pparse c with
    | some v => { st with fullContent := c, updates := st.updates ++ [v] }
    | none => { st with fullContent := c }
  else st

/-- Post-parse summary fixup of `generateDbtRules` (lines 63-66): when the
strictly parsed result has a falsy `summary` (absent or empty string) and a
`globalRecommendations` array (any array is truthy), the summary is set to
the recommendations joined with blank lines. -/
def fixupSummary (result : RuleSetObj) : RuleSetObj :=
  if !(jsTruthyStr result.summary) && result.globalRecommendations.isSome then
    { result with
      summary := some (String.intercalate "\n\n" (result.globalRecommendations.getD [])) }
  else result

/-- Embedding of `generateDbtRules` (lines 13-72): run the streaming loop,
then strictly parse the full accumulated text (`sparse` is the injected
`JSON.parse`; `Except.error m` models its throw with message `m`) and apply
the summary fixup.  Every throw is wrapped by the surrounding catch into a
descriptive `"DBT rules generation failed: ..."` error.  Returns the result
and the ordered list of streamed partial values handed to `onUpdate`. -/
def generateDbtRulesModel (pparse : String → Option RuleSetObj)
    (sparse : String → Except String RuleSetObj) (events : List StreamEvent) :
    Except String RuleSetObj × List RuleSetObj :=
  let st := events.foldl (dbtStreamStep pparse) ⟨"", [], none⟩
  match st.err with
  | some m => (.error ("DBT rules generation failed: " ++ m), st.updates)
  | none =>
    match sparse st.fullContent with
    | .error m => (.error ("DBT rules generation failed: " ++ m), st.updates)
    | .ok r => (.ok (fixupSummary r), st.updates)

/-- The empty rule-set document installed by `handleGenerateDbtRules` before
generation starts (`src/js/core/event-handlers.js` lines 202-205). -/
def emptyDbtDoc : RuleSetObj :=
  { dbtRules := some [], globalRecommendations := some [], summary := none }

/-- Observable outcome of a `handleGenerateDbtRules` run: the final value of
the module-level `dbtRulesData`, the status message, and the sequence of
documents handed to `renderResults`. -/
structure DbtHandlerResult where
  dbtRulesData : Option RuleSetObj
  status : String
  renders : List RuleSetObj
deriving Repr

/-- Embedding of `handleGenerateDbtRules` (`src/js/core/event-handlers.js`
lines 189-236) from the point where generation begins: `dbtRulesData` (whose
prior value is `prior`) is overwritten with a fresh empty document, which is
rendered, then `generateDbtRules` runs with a callback that renders every
truthy partial; on success the result is stored, on a thrown error only the
status is updated and `dbtRulesData` keeps the value it had when the request
failed. -/
def handleGenerateDbtRulesModel (pparse : String → Option RuleSetObj)
    (sparse : String → Except String RuleSetObj) (events : List StreamEvent)
    (prior : Option RuleSetObj) : DbtHandlerResult :=
  let gen := generateDbtRulesModel pparse sparse events
  match gen.1 with
  | .ok v => ⟨some v, "DBT rules generation complete!", emptyDbtDoc :: gen.2⟩
  | .error m => ⟨some emptyDbtDoc, "Error generating DBT rules: " ++ m, emptyDbtDoc :: gen.2⟩

/-- A streamed partial schema value as seen by the `handleFileUpload`
progress callback: each of the four list-valued document fields may or may
not have been produced yet by the best-effort parser.  List entries are
abstracted to opaque payloads; only key presence matters here. -/
structure SchemaPartialValue where
  schemas : Option (List String) := none
  relationships : Option (List String) := none
  suggestedJoins : Option (List String) := none
  modelingRecommendations : Option (List String) := none
deriving Repr, DecidableEq

/-- The coercion the `handleFileUpload` callback applies to a partial value
before forwarding it to the renderers (`src/js/core/event-handlers.js` lines
146-148, identical in `src/js/main.js` lines 469-471): only a falsy
`relationships` field is replaced by an empty array; no other field is
touched. -/
def ensureRelationships (p : SchemaPartialValue) : SchemaPartialValue :=
  if p.relationships.isSome then p else { p with relationships := some [] }

/-- The `handleFileUpload` progress callback (lines 142-156): a truthy
partial value is coerced by `ensureRelationships` and forwarded to the four
schema renderers; a falsy one is dropped.  Returns the forwarded value. -/
def forwardSchemaUpdate (p : Option SchemaPartialValue) : Option SchemaPartialValue :=
  match p with
  | some v => some (ensureRelationships v)
  | none => none

/-- The `handleGenerateDbtRules` progress callback
(`src/js/core/event-handlers.js` lines 214-219): a truthy partial rule set is
forwarded to `renderResults` completely unmodified. -/
def forwardDbtUpdate (p : Option RuleSetObj) : Option RuleSetObj :=
  match p with
  | some v => some v
  | none => none

/-- All four list-valued fields of a forwarded schema partial are present. -/
def schemaListsPresent (p : SchemaPartialValue) : Prop :=
  p.schemas.isSome ∧ p.relationships.isSome ∧ p.suggestedJoins.isSome
    ∧ p.modelingRecommendations.isSome

instance (p : SchemaPartialValue) : Decidable (schemaListsPresent p) := by
  unfold schemaListsPresent; infer_instance

/-- Both list-valued fields of a forwarded rule-set partial are present. -/
def ruleSetListsPresent (r : RuleSetObj) : Prop :=
  r.dbtRules.isSome ∧ r.globalRecommendations.isSome

instance (r : RuleSetObj) : Decidable (ruleSetListsPresent r) := by
  unfold ruleSetListsPresent; infer_instance

/-- Chat intents distinguished by the router in `streamChatResponse`. -/
inductive ChatIntent where
  | StructuralEdit
  | PlainQuestion
deriving Repr, DecidableEq

/-- Embedding of the chat-intent heuristic of `streamChatResponse`
(`src/js/llm-service.js` lines 134-135): the message is handed to the DBT
rule handler exactly when its lowercased text contains the substring "rule"
or the substring "dbt". -/
def routeMessage (userMessage : String) : ChatIntent :=
  if strIncludes (jsToLower userMessage) "rule" || strIncludes (jsToLower userMessage) "dbt"
    then .StructuralEdit
    else .PlainQuestion

/-! Supporting lemmas. -/

/-- A flag different from the JavaScript literal `true` compares unequal to
it, matching the strict `newRule.isNewRule === true` test. -/
theorem beq_some_true_eq_false {o : Option Bool} (h : o ≠ some true) :
    (o == some true) = false := by
  cases o with
  | none => rfl
  | some b => cases b with
    | true => exact absurd rfl h
    | false => rfl

/-- Substring containment is preserved when the text grows at the end,
which is how a cumulative stream extends its accumulated text. -/
theorem strIncludes_mono {a b sub : String} (h : strIncludes a sub = true)
    (hp : a.data <+: b.data) : strIncludes b sub = true := by
  unfold strIncludes at *
  exact decide_eq_true ((of_decide_eq_true h).trans hp.isInfix)

/-- The tail of a cumulative chain is a cumulative chain. -/
theorem chainB_tail {a : String} {l : List String} (h : chainB (a :: l) = true) :
    chainB l = true := by
  cases l with
  | nil => rfl
  | cons b t =>
    simp only [chainB, Bool.and_eq_true] at h
    exact h.2

/-- The first step of a cumulative chain is a proper prefix extension. -/
theorem chainB_head {a b : String} {l : List String} (h : chainB (a :: b :: l) = true) :
    a.data <+: b.data := by
  simp only [chainB, Bool.and_eq_true, decide_eq_true_eq] at h
  exact h.1

/-- Setting one index leaves every other index unchanged. -/
theorem getD_set_ne {α : Type} (l : List α) (i j : Nat) (a d : α) (h : i ≠ j) :
    (l.set i a).getD j d = l.getD j d := by
  simp [List.getD_eq_getElem?_getD, List.getElem?_set_ne h]

/-- Setting an in-bounds index stores the written value at that index. -/
theorem getD_set_self {α : Type} (l : List α) (i : Nat) (a d : α) (h : i < l.length) :
    (l.set i a).getD i d = a := by
  simp [List.getD_eq_getElem?_getD, List.getElem?_set_self h]

/-- Reading an index inside the left part of an appended list ignores the
appended part. -/
theorem getD_append_left {α : Type} (l l2 : List α) (i : Nat) (d : α)
    (h : i < l.length) : (l ++ l2).getD i d = l.getD i d := by
  simp [List.getD_eq_getElem?_getD, List.getElem?_append, h]

/-- Reading the appended cell of a one-element extension yields that cell. -/
theorem getD_concat_length {α : Type} (l : List α) (a d : α) :
    (l ++ [a]).getD l.length d = a := by
  simp [List.getD_eq_getElem?_getD, List.getElem?_concat_length]

/-- The reconciliation loop folded over the store writes only to the fresh
cell, so every other cell keeps its value. -/
theorem foldl_set_preserve {uref r : Nat} (hne : uref ≠ r) (entries : List Rule) :
    ∀ st : List (List Rule),
      ((entries.foldl (fun st e => st.set uref (processEntryList (st.getD uref []) e)) st).getD r [])
        = st.getD r [] := by
  induction entries with
  | nil => intro st; rfl
  | cons e rest ih =>
    intro st
    rw [List.foldl_cons, ih, getD_set_ne _ _ _ _ _ hne]

/-- The store-level loop applied to the fresh cell computes the value-level
fold of the per-entry list transformation. -/
theorem foldl_set_value (uref : Nat) (entries : List Rule) :
    ∀ st : List (List Rule), uref < st.length →
      ((entries.foldl (fun st e => st.set uref (processEntryList (st.getD uref []) e)) st).getD uref [])
        = entries.foldl processEntryList (st.getD uref []) := by
  induction entries with
  | nil => intro st _; rfl
  | cons e rest ih =>
    intro st h
    rw [List.foldl_cons, List.foldl_cons, ih _ (by simpa using h),
      getD_set_self _ _ _ _ h]

/-- The evolution of the `updatedRules.dbtRules` array in one loop iteration
depends only on that array, not on the log or the processed entries. -/
theorem processEntry_updatedDbt (st : LoopState) (e : Rule) :
    (processEntry st e).updatedDbt = processEntryList st.updatedDbt e := by
  unfold processEntryList processEntry
  cases hidx : st.updatedDbt.findIdx? (fun rule => rule.tableName == e.tableName) with
  | none => simp [hidx]
  | some i =>
    cases hb : (e.isNewRule == some true) with
    | true => simp [hidx, hb]
    | false => simp [hidx, hb]

/-- The full loop's effect on the `updatedRules.dbtRules` array equals the
fold of the per-entry list transformation. -/
theorem foldl_processEntry_updatedDbt (entries : List Rule) :
    ∀ st : LoopState, (entries.foldl processEntry st).updatedDbt
      = entries.foldl processEntryList st.updatedDbt := by
  induction entries with
  | nil => intro st; rfl
  | cons e rest ih =>
    intro st
    rw [List.foldl_cons, List.foldl_cons, ih, processEntry_updatedDbt]

/-- A patch entry that carries no `isNewRule` flag is passed through the
loop unmutated: the merge branch never touches it, and in the add branch the
rename requires the flag and deleting an absent flag is a no-op. -/
theorem processEntry_postEntries_of_no_flag (st : LoopState) (e : Rule)
    (he : e.isNewRule = none) :
    (processEntry st e).postEntries = st.postEntries ++ [e] := by
  unfold processEntry
  cases hidx : st.updatedDbt.findIdx? (fun rule => rule.tableName == e.tableName) with
  | some i => simp [he, hidx]
  | none =>
    have he2 : ({ e with isNewRule := none } : Rule) = e := by
      cases e; simp_all
    simp [he, hidx, he2]

/-- Folding a flag-free patch through the loop leaves the patch entries
exactly as they were. -/
theorem foldl_processEntry_postEntries (entries : List Rule)
    (h : ∀ e ∈ entries, e.isNewRule = none) :
    ∀ st : LoopState, (entries.foldl processEntry st).postEntries
      = st.postEntries ++ entries := by
  induction entries with
  | nil => intro st; simp
  | cons e rest ih =>
    intro st
    rw [List.foldl_cons, ih (fun x hx => h x (by simp [hx])),
      processEntry_postEntries_of_no_flag st e (h e (by simp))]
    simp

/-- Once the chat loop has thrown, no further callback is invoked. -/
theorem chatRun_errored (events : List StreamEvent) :
    ∀ st : ChatState, st.errored = true →
      (chatRun st events).2 = events.map (fun _ => none) := by
  induction events with
  | nil => intro st _; rfl
  | cons e rest ih =>
    intro st h
    have hstep : chatStep st e = (st, none) := by simp [chatStep, h]
    simp [chatRun, hstep, ih st h]

/-- Once the accumulated text contains the sentinel, a cumulative stream
only ever produces the fixed working indicator (or no callback at all). -/
theorem chatRun_after_sentinel (events : List StreamEvent) :
    ∀ st : ChatState, st.errored = false →
      strIncludes st.fullContent dbtRuleSentinel = true →
      chainB (st.fullContent :: events.filterMap eventContent) = true →
      ∀ em ∈ (chatRun st events).2, em = none ∨ em = some dbtWorkingIndicator := by
  induction events with
  | nil => intro st _ _ _ em hm; simp [chatRun] at hm
  | cons e rest ih =>
    intro st herr hsent hchain em hm
    by_cases he : jsTruthyStr e.error = true
    · have hstep : chatStep st e = ({ st with errored := true }, none) := by
        simp [chatStep, herr, he]
      simp only [chatRun, hstep] at hm
      rw [chatRun_errored rest { st with errored := true } rfl] at hm
      rcases List.mem_cons.mp hm with rfl | hm2
      · exact Or.inl rfl
      · rcases List.mem_map.mp hm2 with ⟨_, _, rfl⟩
        exact Or.inl rfl
    · by_cases hc : jsTruthyStr e.content = true
      · obtain ⟨c, hce⟩ : ∃ c, e.content = some c := by
          cases hec : e.content with
          | none => rw [hec] at hc; simp [jsTruthyStr] at hc
          | some c => exact ⟨c, rfl⟩
        have hecv : eventContent e = some c := by
          rw [eventContent, if_neg (by simp [he]), if_pos hc, hce]
        have hfm : (e :: rest).filterMap eventContent = c :: rest.filterMap eventContent := by
          simp [List.filterMap_cons, hecv]
        rw [hfm] at hchain
        have hpre : st.fullContent.data <+: c.data := chainB_head hchain
        have hcs : strIncludes c dbtRuleSentinel = true := strIncludes_mono hsent hpre
        have hstep : chatStep st e
            = ({ st with fullContent := c, isDbtRuleResponse := true }, some dbtWorkingIndicator) := by
          rw [chatStep, if_neg (by simp [herr]), if_neg (by simp [he]), if_pos hc]
          simp [hce, hcs]
        simp only [chatRun, hstep] at hm
        rcases List.mem_cons.mp hm with rfl | hm2
        · exact Or.inr rfl
        · exact ih { st with fullContent := c, isDbtRuleResponse := true } herr hcs
            (chainB_tail hchain) em hm2
      · have hecv : eventContent e = none := by
          rw [eventContent, if_neg (by simp [he]), if_neg (by simp [hc])]
        have hstep : chatStep st e = (st, none) := by
          rw [chatStep, if_neg (by simp [herr]), if_neg (by simp [he]), if_neg (by simp [hc])]
        have hfm : (e :: rest).filterMap eventContent = rest.filterMap eventContent := by
          simp [List.filterMap_cons, hecv]
        rw [hfm] at hchain
        simp only [chatRun, hstep] at hm
        rcases List.mem_cons.mp hm with rfl | hm2
        · exact Or.inl rfl
        · exact ih st herr hsent hchain em hm2

/-! Claim theorems. -/

/-- C7: when the current rule set is absent or has no `dbtRules` list, the
Reconciler fails fast with the descriptive "generate rules first" error,
returns a null `updatedRules`, creates no change log, and leaves the patch
object (the only other mutable argument) untouched. -/
theorem c7_precondition_failure (currentRules : Option RuleSetObj) (changes : Changes)
    (h : currentRules = none ∨ ∃ c, currentRules = some c ∧ c.dbtRules = none) :
    processRuleChanges currentRules changes
      = ⟨⟨"Error: Generate DBT rules first.", none⟩, none, changes⟩ := by
  rcases h with rfl | ⟨c, rfl, hc⟩
  · rfl
  · simp [processRuleChanges, hc]

/-- Witness for C7 at a concrete input: a null current rule set. -/
theorem c7_precondition_failure_witness :
    processRuleChanges none ⟨none, none, none⟩
      = ⟨⟨"Error: Generate DBT rules first.", none⟩, none, ⟨none, none, none⟩⟩ :=
  c7_precondition_failure none ⟨none, none, none⟩ (Or.inl rfl)

/-- C9: the chat router classifies a message as a structural-edit request
exactly when its lowercased text contains the substring "rule" or the
substring "dbt"; in particular "What does the email column mean?" takes the
plain-question path and "Add a not-null rule to the orders table" takes the
structural-edit path. -/
theorem c9_chat_routing :
    (∀ m : String, routeMessage m = ChatIntent.StructuralEdit
      ↔ (strIncludes (jsToLower m) "rule" = true ∨ strIncludes (jsToLower m) "dbt" = true))
    ∧ routeMessage "What does the email column mean?" = ChatIntent.PlainQuestion
    ∧ routeMessage "Add a not-null rule to the orders table" = ChatIntent.StructuralEdit := by
  refine ⟨fun m => ?_, by decide, by decide⟩
  unfold routeMessage
  by_cases h1 : strIncludes (jsToLower m) "rule" = true
  · simp [h1]
  · by_cases h2 : strIncludes (jsToLower m) "dbt" = true
    · simp [h1, h2]
    · simp [h1, h2]

/-- C2 counterexample: the claim that every forwarded partial has all
list-valued fields present is false at the concrete partial value `{}` (the
best-effort parse of an early prefix): the schema-path callback coerces only
`relationships`, leaving `schemas`, `suggestedJoins` and
`modelingRecommendations` absent, and the rule-set-path callback forwards the
value with `dbtRules` and `globalRecommendations` absent. -/
theorem c2_lists_present_counterexample :
    (forwardSchemaUpdate (some ⟨none, none, none, none⟩)
      = some ⟨none, some [], none, none⟩)
    ∧ ¬ schemaListsPresent ⟨none, some [], none, none⟩
    ∧ (forwardDbtUpdate (some ⟨none, none, none⟩) = some ⟨none, none, none⟩)
    ∧ ¬ ruleSetListsPresent ⟨none, none, none⟩ := by
  refine ⟨rfl, by decide, rfl, by decide⟩

/-- C2 amended: of the Document's list-valued fields, only `relationships`
is guaranteed present (coerced to an empty sequence when absent) on every
Schema partial forwarded to observers; the other Schema list fields, and
both list fields of a forwarded RuleSet partial, may be absent. -/
theorem c2_lists_present_amended (p : SchemaPartialValue) :
    ((ensureRelationships p).relationships).isSome = true
    ∧ (ensureRelationships p).schemas = p.schemas
    ∧ (ensureRelationships p).suggestedJoins = p.suggestedJoins
    ∧ (ensureRelationships p).modelingRecommendations = p.modelingRecommendations
    ∧ (∀ r : RuleSetObj, forwardDbtUpdate (some r) = some r) := by
  refine ⟨?_, ?_, ?_, ?_, fun r => rfl⟩ <;>
    · unfold ensureRelationships
      by_cases h : p.relationships.isSome <;> simp [h]

/-- C10 counterexample: the claim that a present `summary` is returned
unchanged fails at the concrete parsed result
`{summary: "", globalRecommendations: ["a"]}`: the empty string is falsy, so
the summary is overwritten with the joined recommendations. -/
theorem c10_summary_counterexample :
    ((⟨none, some ["a"], some ""⟩ : RuleSetObj).summary.isSome = true)
    ∧ (fixupSummary ⟨none, some ["a"], some ""⟩ = ⟨none, some ["a"], some "a"⟩)
    ∧ (fixupSummary ⟨none, some ["a"], some ""⟩ : RuleSetObj).summary
        ≠ (⟨none, some ["a"], some ""⟩ : RuleSetObj).summary := by
  refine ⟨rfl, by decide, by decide⟩

/-- C10 amended: when the strictly parsed result's `summary` is absent or
the empty string and a `globalRecommendations` list is present, the returned
summary is the recommendations joined with blank lines; a present non-empty
summary (and any result without recommendations) is returned unchanged. -/
theorem c10_summary_amended :
    (∀ (r : RuleSetObj) (g : List String),
      (r.summary = none ∨ r.summary = some "") → r.globalRecommendations = some g →
        (fixupSummary r).summary = some (String.intercalate "\n\n" g))
    ∧ (∀ (r : RuleSetObj) (s : String), r.summary = some s → s ≠ "" →
        fixupSummary r = r) := by
  constructor
  · intro r g hs hg
    rcases hs with hs | hs <;> simp [fixupSummary, jsTruthyStr, hs, hg]
  · intro r s hs hne
    have : jsTruthyStr r.summary = true := by
      rw [hs]
      simpa [jsTruthyStr] using hne
    simp [fixupSummary, this]

/-- Witness for C10 amended at concrete inputs: an absent summary with two
recommendations is replaced by their blank-line join, and a present non-empty
summary is kept. -/
theorem c10_summary_amended_witness :
    ((fixupSummary ⟨none, some ["x", "y"], none⟩ : RuleSetObj).summary = some "x\n\ny")
    ∧ fixupSummary ⟨none, none, some "keep"⟩ = ⟨none, none, some "keep"⟩ := by
  constructor
  · have h := c10_summary_amended.1 ⟨none, some ["x", "y"], none⟩ ["x", "y"]
      (Or.inl rfl) rfl
    simpa using h
  · exact c10_summary_amended.2 ⟨none, none, some "keep"⟩ "keep" rfl (by decide)

/-- C6: a patch entry whose `tableName` matches an existing rule and that is
not flagged `isNewRule === true` is merged by shallow-overwriting the fields
present on the patch entry onto the stored copy of the existing rule (absent
fields keep their existing values, see `objectAssign`), and the change log
records exactly one Modified entry naming that table and nothing else. -/
theorem c6_merge_semantics (cs : List Rule) (grecs : Option (List String))
    (summ : Option String) (e : Rule) (i : Nat)
    (hfound : cs.findIdx? (fun rule => rule.tableName == e.tableName) = some i)
    (hflag : e.isNewRule ≠ some true) :
    ((processRuleChanges (some ⟨some cs, grecs, summ⟩) ⟨some [e], none, none⟩).result.updatedRules
      = some ⟨some (cs.set i (objectAssign (cs.getD i defaultRule) e)), grecs, summ⟩)
    ∧ ((processRuleChanges (some ⟨some cs, grecs, summ⟩) ⟨some [e], none, none⟩).changeLog
      = some ⟨[], ["Modified rule for table \x27" ++ e.tableName ++ "\x27"], [], e.tableName⟩) := by
  have hb := beq_some_true_eq_false hflag
  constructor <;> simp [processRuleChanges, processEntry, hfound, hb, jsTruthyStr]

/-- Witness for C6 at the concrete inputs of the spec's scenario: patching
`{tableName: "orders", materialization: "view"}` onto an existing "orders"
rule (whose materialization is "table" and whose model SQL is "select 1")
yields a rule with materialization "view" and the model SQL untouched, and
one Modified log entry naming "orders". -/
theorem c6_merge_semantics_witness :
    ((processRuleChanges
        (some ⟨some [⟨"orders", none, some "table", some "select 1"⟩], none, none⟩)
        ⟨some [⟨"orders", none, some "view", none⟩], none, none⟩).result.updatedRules
      = some ⟨some [⟨"orders", none, some "view", some "select 1"⟩], none, none⟩)
    ∧ ((processRuleChanges
        (some ⟨some [⟨"orders", none, some "table", some "select 1"⟩], none, none⟩)
        ⟨some [⟨"orders", none, some "view", none⟩], none, none⟩).changeLog
      = some ⟨[], ["Modified rule for table \x27orders\x27"], [], "orders"⟩) := by
  have h := c6_merge_semantics [⟨"orders", none, some "table", some "select 1"⟩]
    none none ⟨"orders", none, some "view", none⟩ 0 (by decide) (by decide)
  exact h

/-- C4 counterexample: uniqueness of the `tableName` key after reconciliation
is not guaranteed.  With an existing rule named "orders_additional" and a
flagged-new patch entry of the same name, the name already contains the
disambiguating suffix, so no rename happens and the result holds two rules
with the same `tableName`. -/
theorem c4_unique_naming_counterexample :
    ((((processRuleChanges
          (some ⟨some [⟨"orders_additional", none, none, none⟩], none, none⟩)
          ⟨some [⟨"orders_additional", some true, none, none⟩], none, none⟩).result.updatedRules.getD
        ⟨none, none, none⟩).dbtRules.getD []).map Rule.tableName
      = ["orders_additional", "orders_additional"])
    ∧ ¬ ((((processRuleChanges
          (some ⟨some [⟨"orders_additional", none, none, none⟩], none, none⟩)
          ⟨some [⟨"orders_additional", some true, none, none⟩], none, none⟩).result.updatedRules.getD
        ⟨none, none, none⟩).dbtRules.getD []).map Rule.tableName).Nodup := by
  refine ⟨by decide, by decide⟩

/-- C4 amended: when a patch entry is flagged as new, a rule with the same
`tableName` already exists, and the name contains neither "_new" nor
"_additional", the entry is inserted at the end under the name with the
fixed "_additional" suffix appended and its flag stripped, and the log
records one Added entry for the renamed table; uniqueness of the resulting
names is not guaranteed in general (the rename is skipped for names already
carrying a suffix and the renamed name may itself collide). -/
theorem c4_unique_naming_amended (cs : List Rule) (grecs : Option (List String))
    (summ : Option String) (e : Rule) (i : Nat)
    (hfound : cs.findIdx? (fun rule => rule.tableName == e.tableName) = some i)
    (hnew : e.isNewRule = some true)
    (h1 : strIncludes e.tableName "_new" = false)
    (h2 : strIncludes e.tableName "_additional" = false) :
    ((processRuleChanges (some ⟨some cs, grecs, summ⟩) ⟨some [e], none, none⟩).result.updatedRules
      = some ⟨some (cs ++ [⟨e.tableName ++ "_additional", none, e.materialization, e.modelSql⟩]),
          grecs, summ⟩)
    ∧ ((processRuleChanges (some ⟨some cs, grecs, summ⟩) ⟨some [e], none, none⟩).changeLog
      = some ⟨["Added new rule for table \x27" ++ (e.tableName ++ "_additional") ++ "\x27"],
          [], [], e.tableName ++ "_additional"⟩) := by
  constructor <;> simp [processRuleChanges, processEntry, hfound, hnew, h1, h2, jsTruthyStr]

/-- Witness for C4 amended at the spec's concrete scenario: an existing
"orders" rule plus the flagged-new patch entry `{tableName: "orders"}`
produce one rule still named "orders" and one named "orders_additional". -/
theorem c4_unique_naming_amended_witness :
    ((processRuleChanges (some ⟨some [⟨"orders", none, none, none⟩], none, none⟩)
        ⟨some [⟨"orders", some true, none, none⟩], none, none⟩).result.updatedRules
      = some ⟨some [⟨"orders", none, none, none⟩, ⟨"orders_additional", none, none, none⟩],
          none, none⟩)
    ∧ ((processRuleChanges (some ⟨some [⟨"orders", none, none, none⟩], none, none⟩)
        ⟨some [⟨"orders", some true, none, none⟩], none, none⟩).changeLog
      = some ⟨["Added new rule for table \x27orders_additional\x27"], [], [],
          "orders_additional"⟩) := by
  have h := c4_unique_naming_amended [⟨"orders", none, none, none⟩] none none
    ⟨"orders", some true, none, none⟩ 0 (by decide) rfl (by decide) (by decide)
  exact h

/-- C1 counterexample: the Reconciler is not pure in its patch argument — a
flagged-new colliding entry is renamed and flag-stripped in place — so a
second call with the very same `(current, patch)` pair can return a different
`updatedRules`.  Concretely, with current rules named "a" and "a_additional"
and the patch `{dbtRules: [{tableName: "a", isNewRule: true}]}`, the first
call appends a duplicate "a_additional" rule (three rules), while the second
call sees the mutated patch entry `{tableName: "a_additional"}` and merges
instead (two rules). -/
theorem c1_determinism_counterexample :
    (processRuleChanges
        (some ⟨some [⟨"a", none, none, none⟩, ⟨"a_additional", none, none, none⟩], none, none⟩)
        ⟨some [⟨"a", some true, none, none⟩], none, none⟩).result.updatedRules
      ≠ (processRuleChanges
        (some ⟨some [⟨"a", none, none, none⟩, ⟨"a_additional", none, none, none⟩], none, none⟩)
        ((processRuleChanges
          (some ⟨some [⟨"a", none, none, none⟩, ⟨"a_additional", none, none, none⟩], none, none⟩)
          ⟨some [⟨"a", some true, none, none⟩], none, none⟩).postChanges)).result.updatedRules := by
  decide

/-- C1 amended: the Reconciler is deterministic as a function of argument
values, and calling it twice with the very same patch object yields the same
`updatedRules` whenever no patch entry carries the `isNewRule` flag — in that
case the first call leaves the patch object's value unchanged.  (A flagged
entry can be renamed/stripped in place by the first call, which is what the
counterexample exploits.) -/
theorem c1_determinism_amended (c : RuleSetObj) (p : Changes)
    (h : ∀ e ∈ p.dbtRules.getD [], e.isNewRule = none) :
    ((processRuleChanges (some c) p).postChanges = p)
    ∧ ((processRuleChanges (some c) ((processRuleChanges (some c) p).postChanges)).result.updatedRules
        = (processRuleChanges (some c) p).result.updatedRules) := by
  obtain ⟨pd, pg, ps⟩ := p
  have hpost : (processRuleChanges (some c) ⟨pd, pg, ps⟩).postChanges = ⟨pd, pg, ps⟩ := by
    cases hc : c.dbtRules with
    | none => simp [processRuleChanges, hc]
    | some curList =>
      cases pd with
      | none => simp [processRuleChanges, hc]
      | some entries =>
        have hpe := foldl_processEntry_postEntries entries (by simpa using h)
          ⟨curList, ⟨[], [], [], ""⟩, []⟩
        simp [processRuleChanges, hc, hpe]
  exact ⟨hpost, by rw [hpost]⟩

/-- Witness for C1 amended at a concrete input: a flag-free merge patch
applied twice through the very same patch object gives identical results. -/
theorem c1_determinism_amended_witness :
    ((processRuleChanges (some ⟨some [⟨"orders", none, none, none⟩], none, none⟩)
        ⟨some [⟨"orders", none, some "view", none⟩], none, none⟩).postChanges
      = ⟨some [⟨"orders", none, some "view", none⟩], none, none⟩)
    ∧ ((processRuleChanges (some ⟨some [⟨"orders", none, none, none⟩], none, none⟩)
        ((processRuleChanges (some ⟨some [⟨"orders", none, none, none⟩], none, none⟩)
          ⟨some [⟨"orders", none, some "view", none⟩], none, none⟩).postChanges)).result.updatedRules
      = (processRuleChanges (some ⟨some [⟨"orders", none, none, none⟩], none, none⟩)
          ⟨some [⟨"orders", none, some "view", none⟩], none, none⟩).result.updatedRules) :=
  c1_determinism_amended ⟨some [⟨"orders", none, none, none⟩], none, none⟩
    ⟨some [⟨"orders", none, some "view", none⟩], none, none⟩ (by decide)

/-- C5: reconciliation does not mutate the current rule set.  In the
store-level model, the deep copy allocates a fresh cell distinct from the
current cell, the whole loop writes only to the fresh cell, so after the call
the current cell holds exactly its original list; the fresh cell holds the
reconciled list, which is also what `processRuleChanges` returns as
`updatedRules`. -/
theorem c5_reconciler_non_mutation (store : List (List Rule)) (currentRef : Nat)
    (entries : List Rule) (h : currentRef < store.length) :
    ((heapProcess store currentRef entries).1.getD currentRef [] = store.getD currentRef [])
    ∧ ((heapProcess store currentRef entries).2 ≠ currentRef)
    ∧ ((heapProcess store currentRef entries).1.getD (heapProcess store currentRef entries).2 []
        = entries.foldl processEntryList (store.getD currentRef []))
    ∧ ((processRuleChanges (some ⟨some (store.getD currentRef []), none, none⟩)
          ⟨some entries, none, none⟩).result.updatedRules
        = some ⟨some (entries.foldl processEntryList (store.getD currentRef [])), none, none⟩) := by
  have hne : store.length ≠ currentRef := (Nat.ne_of_lt h).symm
  refine ⟨?_, ?_, ?_, ?_⟩
  · unfold heapProcess
    dsimp only
    rw [foldl_set_preserve hne]
    exact getD_append_left store [store.getD currentRef []] currentRef [] h
  · unfold heapProcess
    dsimp only
    exact hne
  · unfold heapProcess
    dsimp only
    rw [foldl_set_value store.length entries (store ++ [store.getD currentRef []]) (by simp),
      getD_concat_length]
  · simp [processRuleChanges, foldl_processEntry_updatedDbt, jsTruthyStr]

/-- Witness for C5 at a concrete input: a one-cell store holding one "orders"
rule, patched by a merge entry. -/
theorem c5_reconciler_non_mutation_witness :
    ((heapProcess [[⟨"orders", none, some "table", none⟩]] 0
        [⟨"orders", none, some "view", none⟩]).1.getD 0 []
      = [[⟨"orders", none, some "table", none⟩]].getD 0 [])
    ∧ ((heapProcess [[⟨"orders", none, some "table", none⟩]] 0
        [⟨"orders", none, some "view", none⟩]).2 ≠ 0)
    ∧ ((heapProcess [[⟨"orders", none, some "table", none⟩]] 0
        [⟨"orders", none, some "view", none⟩]).1.getD
          (heapProcess [[⟨"orders", none, some "table", none⟩]] 0
            [⟨"orders", none, some "view", none⟩]).2 []
      = [⟨"orders", none, some "view", none⟩].foldl processEntryList
          ([[⟨"orders", none, some "table", none⟩]].getD 0 []))
    ∧ ((processRuleChanges
          (some ⟨some ([[⟨"orders", none, some "table", none⟩]].getD 0 []), none, none⟩)
          ⟨some [⟨"orders", none, some "view", none⟩], none, none⟩).result.updatedRules
      = some ⟨some ([⟨"orders", none, some "view", none⟩].foldl processEntryList
          ([[⟨"orders", none, some "table", none⟩]].getD 0 [])), none, none⟩) :=
  c5_reconciler_non_mutation [[⟨"orders", none, some "table", none⟩]] 0
    [⟨"orders", none, some "view", none⟩] (by decide)

/-- C3 counterexample: after a finalize parse failure the prior Finalized
Document does not remain the stored value visible to observers — the handler
already replaced it with the fresh empty document when the request began.
Here the prior rule set holds an "orders" rule, the stream accumulates
unparseable text, the strict parse throws, and the stored document ends up
being the empty document, not the prior one. -/
theorem c3_finalize_failure_counterexample :
    ((handleGenerateDbtRulesModel (fun _ => none) (fun _ => .error "bad")
        [⟨some "oops", none⟩]
        (some ⟨some [⟨"orders", none, none, none⟩], none, none⟩)).dbtRulesData
      = some emptyDbtDoc)
    ∧ some emptyDbtDoc
        ≠ some (⟨some [⟨"orders", none, none, none⟩], none, none⟩ : RuleSetObj) :=
  ⟨rfl, by decide⟩

/-- C3 amended: when the accumulated full stream text fails the strict parse
(and the stream itself did not error), `generateDbtRules` propagates a
descriptive "DBT rules generation failed" error and returns no partial
document; the caller surfaces the error in the status message, and the
stored document after the failed request is the empty initial document the
handler installed at request start — not the prior Finalized Document. -/
theorem c3_finalize_failure_amended (pparse : String → Option RuleSetObj)
    (sparse : String → Except String RuleSetObj) (events : List StreamEvent)
    (prior : Option RuleSetObj) (m : String)
    (hnoerr : (events.foldl (dbtStreamStep pparse) ⟨"", [], none⟩).err = none)
    (hfail : sparse (events.foldl (dbtStreamStep pparse) ⟨"", [], none⟩).fullContent
      = .error m) :
    ((generateDbtRulesModel pparse sparse events).1
      = .error ("DBT rules generation failed: " ++ m))
    ∧ ((handleGenerateDbtRulesModel pparse sparse events prior).dbtRulesData
      = some emptyDbtDoc)
    ∧ ((handleGenerateDbtRulesModel pparse sparse events prior).status
      = "Error generating DBT rules: " ++ ("DBT rules generation failed: " ++ m)) := by
  have hg : (generateDbtRulesModel pparse sparse events).1
      = .error ("DBT rules generation failed: " ++ m) := by
    unfold generateDbtRulesModel
    simp only [hnoerr, hfail]
  refine ⟨hg, ?_, ?_⟩ <;>
    · unfold handleGenerateDbtRulesModel
      simp only [hg]

/-- Witness for C3 amended at a concrete input: one cumulative chunk of
unparseable text and a strict parser that rejects it. -/
theorem c3_finalize_failure_amended_witness :
    ((generateDbtRulesModel (fun _ => none) (fun _ => Except.error "Unexpected token")
        [⟨some "not json", none⟩]).1
      = .error ("DBT rules generation failed: " ++ "Unexpected token"))
    ∧ ((handleGenerateDbtRulesModel (fun _ => none) (fun _ => Except.error "Unexpected token")
        [⟨some "not json", none⟩] (some ⟨some [], none, none⟩)).dbtRulesData
      = some emptyDbtDoc)
    ∧ ((handleGenerateDbtRulesModel (fun _ => none) (fun _ => Except.error "Unexpected token")
        [⟨some "not json", none⟩] (some ⟨some [], none, none⟩)).status
      = "Error generating DBT rules: " ++ ("DBT rules generation failed: " ++ "Unexpected token")) :=
  c3_finalize_failure_amended (fun _ => none) (fun _ => Except.error "Unexpected token")
    [⟨some "not json", none⟩] (some ⟨some [], none, none⟩) "Unexpected token" rfl rfl

/-- Generalization of the sentinel-suppression property to an arbitrary
start state of the chat loop. -/
theorem chatRun_sentinel_aux (events : List StreamEvent) :
    ∀ (st : ChatState) (i j : Nat) (c : String),
      chainB (events.filterMap eventContent) = true →
      i ≤ j →
      (events[i]?).bind eventContent = some c →
      strIncludes c dbtRuleSentinel = true →
      (chatRun st events).2[j]? = some (some dbtWorkingIndicator)
      ∨ (chatRun st events).2[j]? = some none
      ∨ (chatRun st events).2[j]? = none := by
  induction events with
  | nil =>
    intro st i j c _ _ hi _
    simp at hi
  | cons e rest ih =>
    intro st i j c hchain hij hi hc
    cases i with
    | zero =>
      have hce : eventContent e = some c := by simpa using hi
      have hfacts : jsTruthyStr e.error = false ∧ jsTruthyStr e.content = true
          ∧ e.content = some c := by
        have hx := hce
        unfold eventContent at hx
        by_cases hb1 : jsTruthyStr e.error = true
        · rw [if_pos hb1] at hx; cases hx
        · rw [if_neg hb1] at hx
          by_cases hb2 : jsTruthyStr e.content = true
          · rw [if_pos hb2] at hx
            exact ⟨by simpa using hb1, hb2, hx⟩
          · rw [if_neg hb2] at hx; cases hx
      obtain ⟨he, hcont, hcv⟩ := hfacts
      by_cases hst : st.errored = true
      · rw [chatRun_errored (e :: rest) st hst, List.getElem?_map]
        cases hj : (e :: rest)[j]? with
        | none => right; right; simp
        | some x => right; left; simp
      · have hstf : st.errored = false := by simpa using hst
        have hstep : chatStep st e
            = ({ st with fullContent := c, isDbtRuleResponse := true },
                some dbtWorkingIndicator) := by
          rw [chatStep, if_neg (by simp [hstf]), if_neg (by simp [he]), if_pos hcont]
          simp [hcv, hc]
        cases j with
        | zero =>
          left
          simp [chatRun, hstep]
        | succ j2 =>
          have hfm : (e :: rest).filterMap eventContent
              = c :: rest.filterMap eventContent := by
            simp [List.filterMap_cons, hce]
          rw [hfm] at hchain
          have hall := chatRun_after_sentinel rest
            { st with fullContent := c, isDbtRuleResponse := true } hstf hc hchain
          simp only [chatRun, hstep]
          cases hj : (chatRun { st with fullContent := c, isDbtRuleResponse := true }
              rest).2[j2]? with
          | none => right; right; simpa using hj
          | some em =>
            obtain ⟨hlt, heq⟩ := List.getElem?_eq_some.mp hj
            have hmem : em ∈ (chatRun { st with fullContent := c, isDbtRuleResponse := true }
                rest).2 := by
              have hm := List.getElem_mem hlt
              rwa [heq] at hm
            rcases hall em hmem with rfl | rfl
            · right; left; simpa using hj
            · left; simpa using hj
    | succ i2 =>
      have hi2 : (rest[i2]?).bind eventContent = some c := by simpa using hi
      obtain ⟨j2, rfl⟩ : ∃ j2, j = j2 + 1 := ⟨j - 1, by omega⟩
      have hij2 : i2 ≤ j2 := by omega
      have hch2 : chainB (rest.filterMap eventContent) = true := by
        cases hec : eventContent e with
        | none =>
          have hfm : (e :: rest).filterMap eventContent = rest.filterMap eventContent := by
            simp [List.filterMap_cons, hec]
          rwa [hfm] at hchain
        | some d =>
          have hfm : (e :: rest).filterMap eventContent
              = d :: rest.filterMap eventContent := by
            simp [List.filterMap_cons, hec]
          rw [hfm] at hchain
          exact chainB_tail hchain
      have hres := ih (chatStep st e).1 i2 j2 c hch2 hij2 hi2 hc
      simp only [chatRun]
      simpa using hres

/-- C8: in `handleDbtRuleChat`, once a cumulative chunk's accumulated text
contains the sentinel "DBT_RULE_JSON:", every later progress-callback
invocation (including that chunk's own) passes the single fixed working
indicator "Generating DBT rule modifications..." and never the raw partial
content, until the stream ends. -/
theorem c8_sentinel_suppression (events : List StreamEvent) (i j : Nat) (c : String)
    (hchain : chainB (events.filterMap eventContent) = true)
    (hij : i ≤ j)
    (hi : (events[i]?).bind eventContent = some c)
    (hc : strIncludes c dbtRuleSentinel = true) :
    (chatEmissions events)[j]? = some (some dbtWorkingIndicator)
    ∨ (chatEmissions events)[j]? = some none
    ∨ (chatEmissions events)[j]? = none :=
  chatRun_sentinel_aux events {} i j c hchain hij hi hc

/-- Witness for C8 at a concrete cumulative stream: the sentinel appears in
the second chunk, and the third chunk's callback receives the fixed working
indicator rather than its raw content. -/
theorem c8_sentinel_suppression_witness :
    (chatEmissions [⟨some "He", none⟩, ⟨some "He DBT_RULE_JSON:", none⟩,
        ⟨some "He DBT_RULE_JSON: {}", none⟩])[2]?
      = some (some dbtWorkingIndicator) := by
  have h := c8_sentinel_suppression
    [⟨some "He", none⟩, ⟨some "He DBT_RULE_JSON:", none⟩, ⟨some "He DBT_RULE_JSON: {}", none⟩]
    1 2 "He DBT_RULE_JSON:" (by decide) (by decide) (by decide) (by decide)
  rcases h with h | h | h
  · exact h
  · exact absurd h (by decide)
  · exact absurd h (by decide)
